import Mathlib

/-
  Verification development for the downtime-server repository
  (downtime_tracker Django app).

  The data model and the operations are shallowly embedded from
  `downtime_tracker/models.py` and `downtime_tracker/views.py`:
  timestamps are integers (seconds), database rows are Lean structures,
  querysets are lists, and `transaction.atomic` is modelled by the
  transition returning `Except`: an error result corresponds to a full
  rollback, so the caller's state is unchanged.
-/

namespace Downtime

/-! ### String helpers

Models of Python `str.strip()` and `str.upper()` as used in
`Equipment.set_status` (`models.py` lines 81 and 85).  They are written
by structural recursion on the character list so that concrete equiments
evaluate inside the kernel. -/

/-- Drop leading whitespace characters from a character list. -/
def dropWS : List Char → List Char
  | [] => []
  | c :: cs => if c.isWhitespace then dropWS cs else c :: cs

/-- Model of Python `str.strip()`: drop whitespace from both ends. -/
def pyStrip (s : String) : String :=
  ⟨(dropWS (dropWS s.data.reverse).reverse)⟩

/-- Model of Python `str.upper()` (ASCII case folding suffices for the
status strings used by the app). -/
def pyUpper (s : String) : String :=
  ⟨s.data.map Char.toUpper⟩

/-! ### Data model (`models.py`) -/

/-- `Equipment.Status` (`models.py` lines 37-39). -/
inductive Status
  | UP
  | DOWN
deriving DecidableEq, Repr

/-- `DowntimeEvent.Category` with choices PLANNED / UNPLANNED.  The field is
referenced by `forms.py` and `views.py`; `models.py` under src does not
declare it, so events created by the source `set_status` leave it `none`
and only the spec-modelled transition (below) fills it in. -/
inductive Category
  | PLANNED
  | UNPLANNED
deriving DecidableEq, Repr

/-- A `DowntimeEvent` row (`models.py` lines 163-212).  Users and log rows
are referenced by numeric ids. -/
structure DowntimeEvent where
  started_at : Int
  ended_at : Option Int := none
  start_comment : String := ""
  end_comment : String := ""
  created_by : Option Nat := none
  closed_by : Option Nat := none
  started_by_log : Option Nat := none
  ended_by_log : Option Nat := none
  category : Option Category := none
deriving DecidableEq, Repr

/-- A `StatusChangeLog` row (`models.py` lines 139-157). -/
structure StatusChangeLog where
  changed_by : Option Nat
  from_status : Status
  to_status : Status
  comment : String
  changed_at : Int
deriving DecidableEq, Repr

/-- The persistent state attached to one equipment row: its `status` and
`status_updated_at` columns together with its `downtime_events` and
`status_logs` related rows. -/
structure EquipmentState where
  status : Status
  status_updated_at : Int
  events : List DowntimeEvent
  logs : List StatusChangeLog
deriving DecidableEq, Repr

/-- The `ValidationError` kinds raised by `Equipment.set_status`
(`models.py` lines 82-128) and by `DowntimeEvent.clean` (lines 232-235),
named as in the specification's error taxonomy. -/
inductive TransitionError
  | invalidStatus
  | missingComment
  | noOpTransition
  | duplicateOpenEvent
  | noOpenEventToClose
  | missingCategory
  | endNotAfterStart
deriving DecidableEq, Repr

instance {ε α : Type _} [DecidableEq ε] [DecidableEq α] : DecidableEq (Except ε α) := fun
  | .error e, .error f =>
    match decEq e f with
    | isTrue h => isTrue (h ▸ rfl)
    | isFalse h => isFalse fun hh => h (Except.error.inj hh)
  | .error _, .ok _ => isFalse fun hh => Except.noConfusion hh
  | .ok _, .error _ => isFalse fun hh => Except.noConfusion hh
  | .ok a, .ok b =>
    match decEq a b with
    | isTrue h => isTrue (h ▸ rfl)
    | isFalse h => isFalse fun hh => h (Except.ok.inj hh)

/-- Normalisation and validation of the requested status string
(`models.py` lines 81-83): `str(new_status).upper().strip()` then a
membership check against `{UP, DOWN}`. -/
def parseStatus (raw : String) : Option Status :=
  let ns := pyStrip (pyUpper raw)
  if ns = "UP" then some Status.UP
  else if ns = "DOWN" then some Status.DOWN
  else none

/-- An event is open when `ended_at` is NULL (`models.py` line 221). -/
def isOpen (e : DowntimeEvent) : Bool :=
  e.ended_at = none

/-- `self.downtime_events.filter(ended_at__isnull=True).exists()`
(`models.py` lines 63 and 109). -/
def hasOpen (events : List DowntimeEvent) : Bool :=
  events.any isOpen

/-- Index of the open event selected by
`filter(ended_at__isnull=True).order_by("-started_at").first()`
(`models.py` line 121): among open events, one with maximal
`started_at` (the earliest such index; the database tie order is
unspecified). -/
def openIdx : List DowntimeEvent → Option Nat
  | [] => none
  | e :: rest =>
    match openIdx rest with
    | none => if isOpen e then some 0 else none
    | some j =>
      if isOpen e then
        match rest[j]? with
        | some f => if e.started_at < f.started_at then some (j + 1) else some 0
        | none => some 0
      else some (j + 1)

/-- `Equipment.set_status` (`models.py` lines 65-136).  The whole body runs
under `@transaction.atomic`, so a raised `ValidationError` rolls every
write back: returning `.error` leaves the caller's state untouched.
The `changed_at or timezone.now()` default is resolved by the caller.
`changed_by` is the acting user id (already `None` for anonymous users).
On the UP path, `full_clean` runs `DowntimeEvent.clean` (lines 232-235),
which rejects `ended_at <= started_at`. -/
def set_status (s : EquipmentState) (raw_status comment : String)
    (user : Option Nat) (changed_at : Int) :
    Except TransitionError (EquipmentState × StatusChangeLog) :=
  match parseStatus raw_status with
  | none => .error .invalidStatus
  | some ns =>
    if pyStrip comment = "" then .error .missingComment
    else if ns = s.status then .error .noOpTransition
    else
      let log : StatusChangeLog :=
        { changed_by := user, from_status := s.status, to_status := ns,
          comment := pyStrip comment, changed_at := changed_at }
      if ns = Status.DOWN then
        if hasOpen s.events then .error .duplicateOpenEvent
        else
          let ev : DowntimeEvent :=
            { started_at := changed_at, start_comment := pyStrip comment,
              created_by := user, started_by_log := some s.logs.length }
          let s' : EquipmentState :=
            { status := ns, status_updated_at := changed_at,
              events := s.events ++ [ev], logs := s.logs ++ [log] }
          .ok (s', log)
      else
        match openIdx s.events with
        | none => .error .noOpenEventToClose
        | some j =>
          match s.events[j]? with
          | none => .error .noOpenEventToClose
          | some e =>
            if changed_at ≤ e.started_at then .error .endNotAfterStart
            else
              let e' : DowntimeEvent :=
                { e with ended_at := some changed_at, end_comment := pyStrip comment,
                         closed_by := user, ended_by_log := some s.logs.length }
              let s' : EquipmentState :=
                { status := ns, status_updated_at := changed_at,
                  events := s.events.set j e', logs := s.logs ++ [log] }
              .ok (s', log)

/-- One status-change request as submitted to `set_status`. -/
structure TransitionRequest where
  raw_status : String
  comment : String
  user : Option Nat := none
  changed_at : Int
deriving DecidableEq, Repr

/-- Apply one request: on success the new state persists, on a
`ValidationError` the atomic transaction rolls back and the state is
unchanged. -/
def applyTransition (s : EquipmentState) (r : TransitionRequest) : EquipmentState :=
  match set_status s r.raw_status r.comment r.user r.changed_at with
  | .ok (s', _) => s'
  | .error _ => s

/-- Apply a sequence of requests in order. -/
def applyAll (s : EquipmentState) (rs : List TransitionRequest) : EquipmentState :=
  rs.foldl applyTransition s

/-- Number of open downtime events stored for the equipment. -/
def openCount (s : EquipmentState) : Nat :=
  s.events.countP isOpen

/-- The spec invariant: DOWN iff exactly one open event, UP iff zero
(spec section 3 and `unique_open_downtime_event_per_equipment`,
`models.py` lines 200-206). -/
def statusInvariant (s : EquipmentState) : Prop :=
  openCount s = if s.status = .DOWN then 1 else 0

/-! ### Analytics engine (`views.py`)

Timestamps are integer seconds; event durations in the source are exact
datetime differences, so the clipped overlaps are integers.  Derived
metrics (days, percentages) are rationals. -/

/-- `_overlap_seconds(event, window_start, window_end, now_ts)`
(`views.py` lines 32-37). -/
def overlap_seconds (e : DowntimeEvent) (window_start window_end now_ts : Int) : Int :=
  let overlap_start := max e.started_at window_start
  let overlap_end := min (e.ended_at.getD now_ts) window_end
  if overlap_start < overlap_end then overlap_end - overlap_start else 0

/-- `_window_seconds(year_start, year_end, now_ts)` (`views.py` lines 62-68). -/
def window_seconds (year_start year_end now_ts : Int) : Int :=
  let e := min year_end now_ts
  if e ≤ year_start then 0 else e - year_start

/-- The window-intersection predicate of `_events_overlapping_window`
(`views.py` lines 71-75): `started_at < year_end` and
(`ended_at` NULL or `ended_at > year_start`). -/
def overlaps_window (e : DowntimeEvent) (year_start year_end : Int) : Bool :=
  decide (e.started_at < year_end) &&
    (match e.ended_at with
     | none => true
     | some t => decide (year_start < t))

/-- Total clipped downtime of a list of events, as accumulated by the
`for ev in events` loops in `views.py` (e.g. lines 480-484). -/
def total_downtime_seconds (evs : List DowntimeEvent) (ws we now_ts : Int) : Int :=
  (evs.map (fun e => overlap_seconds e ws we now_ts)).sum

/-- `_safe_div(n, d, default=0.0)` (`views.py` lines 53-59). -/
def safe_div (n d : ℚ) : ℚ :=
  if d = 0 then 0 else n / d

/-- Model of Python `round(x, p)` on the derived rational metrics: round
to `p` decimal places.  (Python rounds ties to even on binary floats;
the model rounds ties up.  No claim depends on the tie rule.) -/
def roundTo (p : ℕ) (q : ℚ) : ℚ :=
  (⌊q * 10 ^ p + 1 / 2⌋ : ℚ) / 10 ^ p

/-- The plant-dashboard availability (`views.py` lines 490-495):
`availability = 0.0; if win_sec > 0: availability = max(0.0, 1.0 - downtime / win_sec)`. -/
def availability (evs : List DowntimeEvent) (ws we now_ts : Int) : ℚ :=
  let win := window_seconds ws we now_ts
  if 0 < win then
    max 0 (1 - (total_downtime_seconds evs ws we now_ts : ℚ) / (win : ℚ))
  else 0

/-- `_mtbf_mttr_for_equipment(events, year_start, year_end, now_ts)`
(`views.py` lines 78-104), returning
`(mtbf_days, mttr_days, downtime_days, event_count)`. -/
def mtbf_mttr_for_equipment (evs : List DowntimeEvent) (ws we now_ts : Int) :
    ℚ × ℚ × ℚ × ℕ :=
  let win := window_seconds ws we now_ts
  if win ≤ 0 then (0, 0, 0, 0)
  else
    let downtime : ℚ := (total_downtime_seconds evs ws we now_ts : ℚ)
    let n : ℕ := evs.length
    let uptime : ℚ := max 0 ((win : ℚ) - downtime)
    (roundTo 3 (safe_div uptime n / 86400),
     roundTo 3 (safe_div downtime n / 86400),
     roundTo 3 (downtime / 86400), n)

/-- `overall_mttr_days` of `plant_dashboard` (`views.py` line 499). -/
def overall_mttr_days (total_downtime_sec : ℚ) (total_event_count : ℕ) : ℚ :=
  roundTo 3 (safe_div total_downtime_sec total_event_count / 86400)

/-- `overall_mtbf_days` of `plant_dashboard` (`views.py` line 500). -/
def overall_mtbf_days (win_sec total_downtime_sec : ℚ) (total_event_count : ℕ) : ℚ :=
  roundTo 3 (safe_div (max 0 (win_sec - total_downtime_sec)) total_event_count / 86400)

/-! ### Pareto ranking (`views.py` lines 526-557)

`pareto_items` is built from the per-equipment downtime totals
(equipment id, downtime seconds); rows with `sec <= 0` are skipped, the
rest are sorted descending by rounded `downtime_days` with Python's
stable `list.sort`, modelled as a stable insertion sort. -/

/-- One entry of `pareto_items`. -/
structure ParetoItem where
  equipment_id : Nat
  downtime_days : ℚ
deriving DecidableEq, Repr

/-- Stable descending insertion: `x` goes in front of the first element
whose key is not larger, so earlier input stays first on ties, matching
Python's stable sort. -/
def insertByDays (x : ParetoItem) : List ParetoItem → List ParetoItem
  | [] => [x]
  | y :: ys =>
    if y.downtime_days ≤ x.downtime_days then x :: y :: ys
    else y :: insertByDays x ys

/-- Stable insertion sort, descending by `downtime_days`. -/
def sortByDaysDesc (l : List ParetoItem) : List ParetoItem :=
  l.foldr insertByDays []

/-- `pareto_items` (`views.py` lines 526-540): keep equipment with
positive downtime seconds, round days to 3 decimals, sort descending. -/
def pareto_items (rows : List (Nat × ℚ)) : List ParetoItem :=
  sortByDaysDesc ((rows.filter (fun r => 0 < r.2)).map
    (fun r => { equipment_id := r.1, downtime_days := roundTo 3 (r.2 / 86400) }))

/-- `pareto_top = pareto_items[:top_n]` with `top_n = 10`
(`views.py` lines 543-544). -/
def pareto_top (rows : List (Nat × ℚ)) : List ParetoItem :=
  (pareto_items rows).take 10

/-- `total_all = sum(x["downtime_days"] for x in pareto_items)`
(`views.py` line 547). -/
def pareto_total_all (rows : List (Nat × ℚ)) : ℚ :=
  ((pareto_items rows).map (fun it => it.downtime_days)).sum

/-- The cumulative-percentage loop of `plant_dashboard`
(`views.py` lines 552-557): running sum over the top values, divided by
`denom = total_all if total_all > 0 else 1.0`, times 100, rounded to 2. -/
def pareto_cum_pct (rows : List (Nat × ℚ)) : List ℚ :=
  let denom := if 0 < pareto_total_all rows then pareto_total_all rows else 1
  (((pareto_top rows).map (fun it => it.downtime_days)).foldl
    (fun acc v => (acc.1 + v, acc.2 ++ [roundTo 2 ((acc.1 + v) / denom * 100)]))
    ((0 : ℚ), ([] : List ℚ))).2

/-- Running partial sums starting from `c0`; the specification's
"running sum" series. -/
def cumSums (c0 : ℚ) : List ℚ → List ℚ
  | [] => []
  | v :: vs => (c0 + v) :: cumSums (c0 + v) vs

/-! ### Report scoping (`views.py`)

The dashboard and department reports join events to equipment and
departments; rows are modelled with explicit foreign keys. -/

/-- A `Department` row as the reports see it. -/
structure DeptRow where
  id : Nat
  is_active : Bool
deriving DecidableEq, Repr

/-- An `Equipment` row as the reports see it. -/
structure EquipRow where
  id : Nat
  department_id : Nat
  is_active : Bool
deriving DecidableEq, Repr

/-- A `DowntimeEvent` row together with its `equipment_id` foreign key. -/
structure EventRow where
  equipment_id : Nat
  event : DowntimeEvent
deriving DecidableEq, Repr

/-- The join `equipment__department__is_active=True`: the event's
equipment belongs to a department row that is active. -/
def deptActive (depts : List DeptRow) (department_id : Nat) : Bool :=
  depts.any (fun d => d.id = department_id && d.is_active)

/-- The event queryset of `plant_dashboard` (`views.py` lines 470-474,
with `cat = ALL` so no category filter; the source `DowntimeEvent` model
declares no category column): events of active equipment in active
departments that intersect the window. -/
def dashboard_events (depts : List DeptRow) (equips : List EquipRow)
    (rows : List EventRow) (ws we : Int) : List EventRow :=
  rows.filter (fun r =>
    (equips.any (fun q =>
      q.id = r.equipment_id && q.is_active && deptActive depts q.department_id)) &&
    overlaps_window r.event ws we)

/-- The per-equipment totals loop of `plant_dashboard`
(`views.py` lines 480-484) for a single equipment id. -/
def dashboard_downtime_seconds (depts : List DeptRow) (equips : List EquipRow)
    (rows : List EventRow) (ws we now_ts : Int) (eqid : Nat) : Int :=
  (((dashboard_events depts equips rows ws we).filter
      (fun r => r.equipment_id = eqid)).map
    (fun r => overlap_seconds r.event ws we now_ts)).sum

/-- The event queryset of `department_detail` (`views.py` lines 142-149):
the department row itself was fetched with `is_active=True`
(line 118), and events are restricted to its active equipment. -/
def department_events (dept : DeptRow) (equips : List EquipRow)
    (rows : List EventRow) (ws we : Int) : List EventRow :=
  rows.filter (fun r =>
    (equips.any (fun q =>
      q.id = r.equipment_id && q.department_id = dept.id && q.is_active)) &&
    overlaps_window r.event ws we)

/-- The total of `equipment_export_csv` (`views.py` lines 282-291): the
equipment row is fetched with `is_active=True` only; its department's
`is_active` flag is never consulted. -/
def equipment_export_total_seconds (rows : List EventRow) (eqid : Nat)
    (ws we now_ts : Int) : Int :=
  ((rows.filter (fun r =>
      r.equipment_id = eqid && overlaps_window r.event ws we)).map
    (fun r => overlap_seconds r.event ws we now_ts)).sum

/-! ### Category handling of the transition (spec-modelled) -/

/-- The error added by `EquipmentStatusForm.clean` (`forms.py` lines 29-34). -/
inductive FormError
  | missingDowntimeCategory
deriving DecidableEq, Repr

/-- `EquipmentStatusForm.clean` (`forms.py` lines 24-39): when the new
status is DOWN a category must be chosen, otherwise a field error is
added; when setting UP any submitted category is discarded. -/
def equipment_status_form_clean (new_status : Status)
    (downtime_category : Option Category) :
    Except FormError (Status × Option Category) :=
  match new_status with
  | .DOWN =>
    match downtime_category with
    | none => .error .missingDowntimeCategory
    | some c => .ok (.DOWN, some c)
  | .UP => .ok (.UP, none)

/-- Modelled from the spec: the transition operation with the
`downtime_category` argument.  `views.py` line 428 passes
`downtime_category=` to `Equipment.set_status` and `forms.py` reads
`DowntimeEvent.Category`, but `models.py` under src has neither the
parameter nor the field; spec section 4.1 says that on a DOWN
transition, after the open-event check, a category must additionally be
supplied (otherwise the transition fails with `MissingCategory`) and the
created DowntimeEvent carries it.  Everything else is as in
`set_status`. -/
def set_status_with_category (s : EquipmentState) (raw_status comment : String)
    (cat : Option Category) (user : Option Nat) (changed_at : Int) :
    Except TransitionError (EquipmentState × StatusChangeLog) :=
  match parseStatus raw_status with
  | none => .error .invalidStatus
  | some ns =>
    if pyStrip comment = "" then .error .missingComment
    else if ns = s.status then .error .noOpTransition
    else
      let log : StatusChangeLog :=
        { changed_by := user, from_status := s.status, to_status := ns,
          comment := pyStrip comment, changed_at := changed_at }
      if ns = Status.DOWN then
        if hasOpen s.events then .error .duplicateOpenEvent
        else
          match cat with
          | none => .error .missingCategory
          | some k =>
            let ev : DowntimeEvent :=
              { started_at := changed_at, start_comment := pyStrip comment,
                created_by := user, started_by_log := some s.logs.length,
                category := some k }
            let s' : EquipmentState :=
              { status := ns, status_updated_at := changed_at,
                events := s.events ++ [ev], logs := s.logs ++ [log] }
            .ok (s', log)
      else
        match openIdx s.events with
        | none => .error .noOpenEventToClose
        | some j =>
          match s.events[j]? with
          | none => .error .noOpenEventToClose
          | some e =>
            if changed_at ≤ e.started_at then .error .endNotAfterStart
            else
              let e' : DowntimeEvent :=
                { e with ended_at := some changed_at, end_comment := pyStrip comment,
                         closed_by := user, ended_by_log := some s.logs.length }
              let s' : EquipmentState :=
                { status := ns, status_updated_at := changed_at,
                  events := s.events.set j e', logs := s.logs ++ [log] }
              .ok (s', log)

/-! ### Lemmas about the state machine -/

theorem openIdx_isOpen : ∀ (l : List DowntimeEvent) (j : Nat), openIdx l = some j →
    ∃ h : j < l.length, isOpen l[j] = true := by
  intro l
  induction l with
  | nil => intro j h; simp [openIdx] at h
  | cons e rest ih =>
    intro j h
    unfold openIdx at h
    cases hr : openIdx rest with
    | none =>
      rw [hr] at h
      by_cases he : isOpen e
      · simp only [he, if_true] at h
        cases h
        exact ⟨by simp, he⟩
      · simp [he] at h
    | some j' =>
      rw [hr] at h
      by_cases he : isOpen e
      · simp only [he, if_true] at h
        cases hf : rest[j']? with
        | some f =>
          rw [hf] at h
          by_cases hlt : e.started_at < f.started_at
          · simp only [hlt, if_true] at h
            cases h
            obtain ⟨hj', ho⟩ := ih j' hr
            exact ⟨by simpa using Nat.succ_lt_succ hj', by simpa using ho⟩
          · simp only [hlt, if_false] at h
            cases h
            exact ⟨by simp, he⟩
        | none =>
          rw [hf] at h
          cases h
          exact ⟨by simp, he⟩
      · simp only [he, if_false] at h
        cases h
        obtain ⟨hj', ho⟩ := ih j' hr
        exact ⟨by simpa using Nat.succ_lt_succ hj', by simpa using ho⟩

theorem openIdx_eq_none_iff (l : List DowntimeEvent) :
    openIdx l = none ↔ hasOpen l = false := by
  induction l with
  | nil => simp [openIdx, hasOpen]
  | cons e rest ih =>
    unfold openIdx
    cases hr : openIdx rest with
    | none =>
      rw [hr] at ih
      by_cases he : isOpen e
      · simp [he, hasOpen]
      · simp only [he, if_false]
        simp only [hasOpen, List.any_cons, he, Bool.false_or] at ih ⊢
        simpa using ih
    | some j' =>
      rw [hr] at ih
      constructor
      · intro h
        exfalso
        by_cases he : isOpen e
        · simp only [he, if_true] at h
          cases hf : rest[j']? <;> rw [hf] at h
          · exact Option.noConfusion h
          · split at h
            · split at h <;> exact Option.noConfusion h
            · exact Option.noConfusion h
        · simp only [he, if_false] at h
          exact Option.noConfusion h
      · intro h
        simp only [hasOpen, List.any_cons, Bool.or_eq_false_iff] at h
        exact absurd (ih.mpr h.2) (by simp)

theorem hasOpen_openIdx (l : List DowntimeEvent) (h : hasOpen l = true) :
    ∃ j, openIdx l = some j := by
  cases ho : openIdx l with
  | none => rw [(openIdx_eq_none_iff l).mp ho] at h; cases h
  | some j => exact ⟨j, rfl⟩

theorem countP_isOpen_of_hasOpen_false (l : List DowntimeEvent)
    (h : hasOpen l = false) : l.countP isOpen = 0 := by
  rw [List.countP_eq_zero]
  intro a ha
  simp only [hasOpen, List.any_eq_false] at h
  exact fun hopen => h a ha hopen

/-- A successful `set_status` preserves the open-event/status invariant. -/
theorem set_status_ok_invariant {s s' : EquipmentState} {log : StatusChangeLog}
    {raw c : String} {u : Option Nat} {t : Int}
    (hok : set_status s raw c u t = .ok (s', log)) (hinv : statusInvariant s) :
    statusInvariant s' := by
  unfold set_status at hok
  cases hp : parseStatus raw with
  | none => rw [hp] at hok; exact absurd hok (by simp)
  | some ns =>
    rw [hp] at hok
    by_cases hc : pyStrip c = ""
    · simp [hc] at hok
    · simp only [hc, if_false] at hok
      by_cases hno : ns = s.status
      · simp [hno] at hok
      · simp only [hno, if_false] at hok
        split at hok
        next hd =>
          split at hok
          · exact absurd hok (by simp)
          next hop =>
            simp only [Except.ok.injEq, Prod.mk.injEq] at hok
            obtain ⟨hs', -⟩ := hok
            subst hs'
            unfold statusInvariant openCount
            simp only [hd]
            rw [List.countP_append,
              countP_isOpen_of_hasOpen_false s.events (by simpa using hop)]
            simp [isOpen]
        next hd =>
          have hup : ns = Status.UP := by
            cases ns with
            | UP => rfl
            | DOWN => exact absurd rfl hd
          split at hok
          · exact absurd hok (by simp)
          next j hj =>
            split at hok
            · exact absurd hok (by simp)
            next e hget =>
              split at hok
              · exact absurd hok (by simp)
              next hle =>
                simp only [Except.ok.injEq, Prod.mk.injEq] at hok
                obtain ⟨hs', -⟩ := hok
                subst hs'
                have hdown : s.status = .DOWN := by
                  cases hst : s.status with
                  | UP => rw [hst, hup] at hno; exact absurd rfl hno
                  | DOWN => rfl
                unfold statusInvariant openCount at hinv ⊢
                obtain ⟨hjlt, hopen⟩ := openIdx_isOpen s.events j hj
                rw [hdown, if_pos rfl] at hinv
                simp only [hup, List.countP_set _ _ _ _ hjlt, hopen, if_pos rfl, hinv]
                simp [isOpen]

theorem applyTransition_invariant (s : EquipmentState) (r : TransitionRequest)
    (h : statusInvariant s) : statusInvariant (applyTransition s r) := by
  unfold applyTransition
  cases hres : set_status s r.raw_status r.comment r.user r.changed_at with
  | ok p =>
    cases p with
    | mk s' log => exact set_status_ok_invariant hres h
  | error e => exact h

theorem applyAll_invariant (s : EquipmentState) (rs : List TransitionRequest)
    (h : statusInvariant s) : statusInvariant (applyAll s rs) := by
  induction rs generalizing s with
  | nil => exact h
  | cons r rest ih => exact ih (applyTransition s r) (applyTransition_invariant s r h)

/-- A failed `set_status` (atomic rollback) leaves the stored state
unchanged. -/
theorem set_status_error_unchanged (s : EquipmentState) (r : TransitionRequest)
    (e : TransitionError)
    (h : set_status s r.raw_status r.comment r.user r.changed_at = .error e) :
    applyTransition s r = s := by
  unfold applyTransition
  rw [h]

/-- C1: for every equipment, after any sequence of transitions through
`set_status` (successful ones persisting, failed ones rolled back)
starting from a state whose status matches its open events, the number
of open DowntimeEvents is 0 or 1, it equals 1 exactly when the status is
DOWN (and is 0 when UP), and the invariant itself is preserved. -/
theorem open_event_count_invariant (s : EquipmentState) (rs : List TransitionRequest)
    (h : statusInvariant s) :
    (openCount (applyAll s rs) = 0 ∨ openCount (applyAll s rs) = 1) ∧
    (openCount (applyAll s rs) = 1 ↔ (applyAll s rs).status = .DOWN) ∧
    ((applyAll s rs).status = .UP → openCount (applyAll s rs) = 0) ∧
    statusInvariant (applyAll s rs) := by
  have hinv := applyAll_invariant s rs h
  have hinv' := hinv
  unfold statusInvariant at hinv'
  cases hst : (applyAll s rs).status with
  | UP =>
    rw [hst] at hinv'
    simp only [reduceCtorEq, if_false] at hinv'
    exact ⟨Or.inl hinv', by simp [hinv'], fun _ => hinv', hinv⟩
  | DOWN =>
    rw [hst] at hinv'
    simp only [if_pos rfl] at hinv'
    exact ⟨Or.inr hinv', by simp [hinv'], by simp [hst], hinv⟩

def c1InitState : EquipmentState :=
  { status := .UP, status_updated_at := 0, events := [], logs := [] }

def c1Requests : List TransitionRequest :=
  [{ raw_status := "DOWN", comment := "pump seal failure", changed_at := 100 },
   { raw_status := "UP", comment := "seal replaced", changed_at := 200 },
   { raw_status := "DOWN", comment := "motor trip", changed_at := 300 }]

theorem open_event_count_invariant_witness :
    statusInvariant c1InitState ∧
    ((openCount (applyAll c1InitState c1Requests) = 0 ∨
      openCount (applyAll c1InitState c1Requests) = 1) ∧
     (openCount (applyAll c1InitState c1Requests) = 1 ↔
      (applyAll c1InitState c1Requests).status = .DOWN) ∧
     ((applyAll c1InitState c1Requests).status = .UP →
      openCount (applyAll c1InitState c1Requests) = 0) ∧
     statusInvariant (applyAll c1InitState c1Requests)) := by
  have hw : statusInvariant c1InitState := by unfold statusInvariant; decide
  exact ⟨hw, open_event_count_invariant c1InitState c1Requests hw⟩

/-! ### Claims C2, C8, C9: transition error behaviour -/

/-- Reduction of `set_status` for an UP request on currently DOWN
equipment with a valid comment: only the close-the-open-event logic
remains. -/
theorem set_status_up_reduce (s : EquipmentState) (c : String) (u : Option Nat)
    (t : Int) (hs : s.status = Status.DOWN) (hc : pyStrip c ≠ "") :
    set_status s "UP" c u t =
      (match openIdx s.events with
      | none => .error .noOpenEventToClose
      | some j =>
        match s.events[j]? with
        | none => .error .noOpenEventToClose
        | some e =>
          if t ≤ e.started_at then .error .endNotAfterStart
          else
            .ok
              ({ status := Status.UP,
                 status_updated_at := t,
                 events := s.events.set j
                   { e with
                     ended_at := some t,
                     end_comment := pyStrip c,
                     closed_by := u,
                     ended_by_log := some s.logs.length },
                 logs := s.logs ++
                   [{ changed_by := u,
                      from_status := Status.DOWN,
                      to_status := Status.UP,
                      comment := pyStrip c,
                      changed_at := t }] },
               { changed_by := u,
                 from_status := Status.DOWN,
                 to_status := Status.UP,
                 comment := pyStrip c,
                 changed_at := t })) := by
  unfold set_status
  rw [show parseStatus "UP" = some Status.UP from rfl, hs]
  simp [hc]

def c2State : EquipmentState :=
  { status := .DOWN, status_updated_at := 5,
    events := [{ started_at := 5, start_comment := "breakdown" }],
    logs := [{ changed_by := none, from_status := .UP, to_status := .DOWN,
               comment := "breakdown", changed_at := 5 }] }

/-- C2 counterexample: on equipment that is already DOWN (status DOWN and
one open event), a second DOWN request fails with the no-op error
("Equipment is already DOWN", `models.py` lines 93-94), not with
`DuplicateOpenEvent`: the no-op check runs before the open-event check. -/
theorem second_down_errors_noop_not_duplicate :
    c2State.status = Status.DOWN ∧ hasOpen c2State.events = true ∧
    set_status c2State "DOWN" "second breakdown" none 9 =
      .error .noOpTransition ∧
    TransitionError.noOpTransition ≠ TransitionError.duplicateOpenEvent :=
  ⟨rfl, rfl, by decide, by decide⟩

/-- C2 (amended): a second DOWN request while the equipment is already
DOWN fails — with `NoOpTransition` ("Equipment is already DOWN"), since
that check precedes the open-event check (`DuplicateOpenEvent` fires
only when the stored status is UP yet an open event exists) — and, the
body being atomic, every validation failure leaves the stored state
unchanged: no new StatusChangeLog entry and no new DowntimeEvent. -/
theorem second_down_fails_and_rolls_back :
    (∀ (s : EquipmentState) (r : TransitionRequest) (e : TransitionError),
      set_status s r.raw_status r.comment r.user r.changed_at = .error e →
      applyTransition s r = s) ∧
    (∀ (s : EquipmentState) (c : String) (u : Option Nat) (t : Int),
      s.status = Status.DOWN → pyStrip c ≠ "" →
      set_status s "DOWN" c u t = .error .noOpTransition) := by
  refine ⟨fun s r e h => set_status_error_unchanged s r e h,
    fun s c u t hs hc => ?_⟩
  unfold set_status
  rw [show parseStatus "DOWN" = some Status.DOWN from rfl, hs]
  simp [hc]

theorem second_down_fails_and_rolls_back_witness :
    c2State.status = Status.DOWN ∧ pyStrip "again" ≠ "" ∧
    set_status c2State "DOWN" "again" none 11 = .error .noOpTransition := by
  have h1 : c2State.status = Status.DOWN := rfl
  have h2 : pyStrip "again" ≠ "" := by decide
  exact ⟨h1, h2, second_down_fails_and_rolls_back.2 c2State "again" none 11 h1 h2⟩

def c8UpState : EquipmentState :=
  { status := .UP, status_updated_at := 0, events := [], logs := [] }

def c8DownState : EquipmentState :=
  { status := .DOWN, status_updated_at := 10,
    events := [{ started_at := 10, start_comment := "belt snapped" }],
    logs := [] }

/-- C8 counterexample: (a) an UP request on equipment with no open event
but status UP fails with the no-op error, not `NoOpenEventToClose`;
(b) an UP request on DOWN equipment whose open event started at 10, made
with timestamp 4, does not succeed: `DowntimeEvent.clean` rejects
`ended_at <= started_at`. -/
theorem up_transition_claim_fails :
    (c8UpState.status = Status.UP ∧ hasOpen c8UpState.events = false ∧
     set_status c8UpState "UP" "still up" none 5 = .error .noOpTransition ∧
     TransitionError.noOpTransition ≠ TransitionError.noOpenEventToClose) ∧
    (c8DownState.status = Status.DOWN ∧ hasOpen c8DownState.events = true ∧
     set_status c8DownState "UP" "fixed" none 4 = .error .endNotAfterStart) :=
  ⟨⟨rfl, rfl, by decide, by decide⟩, ⟨rfl, rfl, by decide⟩⟩

/-- C8 (amended): for an UP request on equipment whose stored status is
DOWN (the earlier validations passing): it fails with
`NoOpenEventToClose` exactly when no open event exists, in which case
nothing changes; and when the open event selected by the query exists
and started strictly before the request timestamp, the transition
succeeds, setting that event's `ended_at`, end comment, closing actor
and log back-reference. -/
theorem up_transition_close_spec (s : EquipmentState) (c : String)
    (u : Option Nat) (t : Int)
    (hs : s.status = Status.DOWN) (hc : pyStrip c ≠ "") :
    (set_status s "UP" c u t = .error .noOpenEventToClose ↔
      hasOpen s.events = false) ∧
    (hasOpen s.events = false →
      applyTransition s { raw_status := "UP", comment := c, user := u,
                          changed_at := t } = s) ∧
    (∀ j e, openIdx s.events = some j → s.events[j]? = some e →
      e.started_at < t →
      set_status s "UP" c u t = .ok
        ({ status := Status.UP,
           status_updated_at := t,
           events := s.events.set j
             { e with
               ended_at := some t,
               end_comment := pyStrip c,
               closed_by := u,
               ended_by_log := some s.logs.length },
           logs := s.logs ++
             [{ changed_by := u,
                from_status := Status.DOWN,
                to_status := Status.UP,
                comment := pyStrip c,
                changed_at := t }] },
         { changed_by := u,
           from_status := Status.DOWN,
           to_status := Status.UP,
           comment := pyStrip c,
           changed_at := t })) := by
  have hred := set_status_up_reduce s c u t hs hc
  refine ⟨?_, ?_, ?_⟩
  · rw [hred]
    cases hj : openIdx s.events with
    | none =>
      have hop := (openIdx_eq_none_iff s.events).mp hj
      simp [hop]
    | some j =>
      obtain ⟨hjlt, hjo⟩ := openIdx_isOpen s.events j hj
      have hne : hasOpen s.events = true := by
        cases hop : hasOpen s.events with
        | false =>
          rw [(openIdx_eq_none_iff s.events).mpr hop] at hj; cases hj
        | true => rfl
      simp only [List.getElem?_eq_getElem hjlt]
      constructor
      · intro h
        split at h <;> simp_all
      · intro h
        rw [h] at hne; cases hne
  · intro hop
    apply set_status_error_unchanged s _ .noOpenEventToClose
    show set_status s "UP" c u t = _
    rw [hred, (openIdx_eq_none_iff s.events).mpr hop]
  · intro j e hj hget hlt
    rw [hred, hj]
    simp only [hget]
    simp [not_le.mpr hlt]

def c8WState : EquipmentState :=
  { status := .DOWN, status_updated_at := 3,
    events := [{ started_at := 3, start_comment := "fault" }], logs := [] }

theorem up_transition_close_spec_witness :
    c8WState.status = Status.DOWN ∧ pyStrip "repaired" ≠ "" ∧
    ((set_status c8WState "UP" "repaired" none 8 = .error .noOpenEventToClose ↔
      hasOpen c8WState.events = false) ∧
     (hasOpen c8WState.events = false →
      applyTransition c8WState { raw_status := "UP", comment := "repaired",
                                 user := none, changed_at := 8 } = c8WState) ∧
     (∀ j e, openIdx c8WState.events = some j → c8WState.events[j]? = some e →
      e.started_at < 8 →
      set_status c8WState "UP" "repaired" none 8 = .ok
        ({ status := Status.UP,
           status_updated_at := 8,
           events := c8WState.events.set j
             { e with
               ended_at := some 8,
               end_comment := pyStrip "repaired",
               closed_by := none,
               ended_by_log := some c8WState.logs.length },
           logs := c8WState.logs ++
             [{ changed_by := none,
                from_status := Status.DOWN,
                to_status := Status.UP,
                comment := pyStrip "repaired",
                changed_at := 8 }] },
         { changed_by := none,
           from_status := Status.DOWN,
           to_status := Status.UP,
           comment := pyStrip "repaired",
           changed_at := 8 }))) := by
  have h1 : c8WState.status = Status.DOWN := rfl
  have h2 : pyStrip "repaired" ≠ "" := by decide
  exact ⟨h1, h2, up_transition_close_spec c8WState "repaired" none 8 h1 h2⟩

/-- C9: an UP transition whose timestamp is at or before the open
event's `started_at` raises the end-after-start validation error from
`DowntimeEvent.clean`, and nothing persists: the atomic rollback leaves
the event open, the status DOWN and the log list unchanged. -/
theorem up_at_or_before_start_rolls_back (s : EquipmentState) (c : String)
    (u : Option Nat) (t : Int)
    (hs : s.status = Status.DOWN) (hc : pyStrip c ≠ "")
    (hopen : hasOpen s.events = true)
    (hearly : ∀ e ∈ s.events, isOpen e = true → t ≤ e.started_at) :
    set_status s "UP" c u t = .error .endNotAfterStart ∧
    applyTransition s { raw_status := "UP", comment := c, user := u,
                        changed_at := t } = s := by
  obtain ⟨j, hj⟩ := hasOpen_openIdx s.events hopen
  obtain ⟨hjlt, hjo⟩ := openIdx_isOpen s.events j hj
  have hle : t ≤ (s.events[j]).started_at :=
    hearly _ (List.getElem_mem hjlt) hjo
  have herr : set_status s "UP" c u t = .error .endNotAfterStart := by
    rw [set_status_up_reduce s c u t hs hc, hj]
    simp [List.getElem?_eq_getElem hjlt, hle]
  exact ⟨herr, set_status_error_unchanged s _ .endNotAfterStart herr⟩

def c9State : EquipmentState :=
  { status := .DOWN, status_updated_at := 10,
    events := [{ started_at := 10, start_comment := "jam" }], logs := [] }

theorem up_at_or_before_start_rolls_back_witness :
    (c9State.status = Status.DOWN ∧ pyStrip "cleared" ≠ "" ∧
     hasOpen c9State.events = true ∧
     (∀ e ∈ c9State.events, isOpen e = true → (10 : Int) ≤ e.started_at)) ∧
    (set_status c9State "UP" "cleared" none 10 = .error .endNotAfterStart ∧
     applyTransition c9State { raw_status := "UP", comment := "cleared",
                               user := none, changed_at := 10 } = c9State) := by
  have h1 : c9State.status = Status.DOWN := rfl
  have h2 : pyStrip "cleared" ≠ "" := by decide
  have h3 : hasOpen c9State.events = true := rfl
  have h4 : ∀ e ∈ c9State.events, isOpen e = true → (10 : Int) ≤ e.started_at := by
    decide
  exact ⟨⟨h1, h2, h3, h4⟩,
    up_at_or_before_start_rolls_back c9State "cleared" none 10 h1 h2 h3 h4⟩

/-! ### Claims C3, C5, C6: overlap, availability, MTBF/MTTR -/

theorem overlap_seconds_nonneg (e : DowntimeEvent) (ws we now_ts : Int) :
    0 ≤ overlap_seconds e ws we now_ts := by
  simp only [overlap_seconds]
  split <;> omega

theorem total_downtime_nonneg (evs : List DowntimeEvent) (ws we now_ts : Int) :
    0 ≤ total_downtime_seconds evs ws we now_ts := by
  unfold total_downtime_seconds
  apply List.sum_nonneg
  intro x hx
  simp only [List.mem_map] at hx
  obtain ⟨e, -, he⟩ := hx
  exact he ▸ overlap_seconds_nonneg e ws we now_ts

/-- C3: `overlap_seconds` equals the positive part of
`min(ended_at or now, window_end) − max(started_at, window_start)`, is 0
for events entirely before the window start or at/after the window end,
and is never negative. -/
theorem overlap_seconds_spec (e : DowntimeEvent) (ws we now_ts : Int) :
    overlap_seconds e ws we now_ts =
      max 0 (min (e.ended_at.getD now_ts) we - max e.started_at ws) ∧
    (e.ended_at.getD now_ts ≤ ws → overlap_seconds e ws we now_ts = 0) ∧
    (we ≤ e.started_at → overlap_seconds e ws we now_ts = 0) ∧
    0 ≤ overlap_seconds e ws we now_ts := by
  refine ⟨?_, fun h => ?_, fun h => ?_, overlap_seconds_nonneg e ws we now_ts⟩ <;>
    (simp only [overlap_seconds]; split <;> omega)

def c3Event : DowntimeEvent :=
  { started_at := -100, ended_at := some (-10), start_comment := "early" }

theorem overlap_seconds_spec_witness :
    (c3Event.ended_at.getD 500 ≤ (0 : Int)) ∧
    overlap_seconds c3Event 0 31536000 500 = 0 := by
  have h : c3Event.ended_at.getD 500 ≤ (0 : Int) := by decide
  exact ⟨h, (overlap_seconds_spec c3Event 0 31536000 500).2.1 h⟩

/-- C5: the plant-dashboard availability equals
`1 − downtime/window_seconds` clamped below at zero (exactly
`1 − downtime/window` whenever downtime does not exceed the window), is
defined as 0 when `window_seconds = 0` — in particular for windows
entirely in the future, where `window_seconds = max(0, min(window_end,
now) − window_start)` is zero — and always lies in `[0, 1]`. -/
theorem availability_spec (evs : List DowntimeEvent) (ws we now_ts : Int) :
    (window_seconds ws we now_ts = 0 → availability evs ws we now_ts = 0) ∧
    (now_ts ≤ ws → window_seconds ws we now_ts = 0) ∧
    (0 < window_seconds ws we now_ts →
      availability evs ws we now_ts =
        max 0 (1 - (total_downtime_seconds evs ws we now_ts : ℚ) /
          (window_seconds ws we now_ts : ℚ))) ∧
    ((total_downtime_seconds evs ws we now_ts : ℚ) ≤
        (window_seconds ws we now_ts : ℚ) →
      0 < window_seconds ws we now_ts →
      availability evs ws we now_ts =
        1 - (total_downtime_seconds evs ws we now_ts : ℚ) /
          (window_seconds ws we now_ts : ℚ)) ∧
    0 ≤ availability evs ws we now_ts ∧ availability evs ws we now_ts ≤ 1 := by
  have hd : (0 : ℚ) ≤ (total_downtime_seconds evs ws we now_ts : ℚ) := by
    exact_mod_cast total_downtime_nonneg evs ws we now_ts
  refine ⟨fun h => ?_, fun h => ?_, fun h => ?_, fun hle h => ?_, ?_, ?_⟩
  · simp [availability, h]
  · simp only [window_seconds]
    split <;> omega
  · simp [availability, h]
  · have hw : (0 : ℚ) < (window_seconds ws we now_ts : ℚ) := by exact_mod_cast h
    have hx : (0 : ℚ) ≤ 1 - (total_downtime_seconds evs ws we now_ts : ℚ) /
        (window_seconds ws we now_ts : ℚ) := by
      have : (total_downtime_seconds evs ws we now_ts : ℚ) /
          (window_seconds ws we now_ts : ℚ) ≤ 1 := (div_le_one hw).mpr hle
      linarith
    simp [availability, h, max_eq_right hx]
  · simp only [availability]
    split
    · exact le_max_left 0 _
    · exact le_refl 0
  · simp only [availability]
    split
    next h =>
      have hw : (0 : ℚ) < (window_seconds ws we now_ts : ℚ) := by exact_mod_cast h
      apply max_le (by norm_num)
      have : 0 ≤ (total_downtime_seconds evs ws we now_ts : ℚ) /
          (window_seconds ws we now_ts : ℚ) := div_nonneg hd (le_of_lt hw)
      linarith
    · norm_num

def c5Evs : List DowntimeEvent :=
  [{ started_at := 10, ended_at := some 20, start_comment := "short stop" }]

theorem availability_spec_witness :
    ((total_downtime_seconds c5Evs 0 100 50 : ℚ) ≤
      (window_seconds 0 100 50 : ℚ)) ∧
    (0 : Int) < window_seconds 0 100 50 ∧
    availability c5Evs 0 100 50 =
      1 - (total_downtime_seconds c5Evs 0 100 50 : ℚ) /
        (window_seconds 0 100 50 : ℚ) := by
  have h1 : (0 : Int) < window_seconds 0 100 50 := by decide
  have hd : total_downtime_seconds c5Evs 0 100 50 = 10 := by decide
  have hw : window_seconds 0 100 50 = 50 := by decide
  have h2 : (total_downtime_seconds c5Evs 0 100 50 : ℚ) ≤
      (window_seconds 0 100 50 : ℚ) := by
    rw [hd, hw]; norm_num
  exact ⟨h2, h1, (availability_spec c5Evs 0 100 50).2.2.2.1 h2 h1⟩

theorem roundTo_nonneg (p : ℕ) (q : ℚ) (h : 0 ≤ q) : 0 ≤ roundTo p q := by
  unfold roundTo
  apply div_nonneg
  · have hfl : (0 : ℤ) ≤ ⌊q * 10 ^ p + 1 / 2⌋ := by
      apply Int.le_floor.mpr
      have h1 : (0 : ℚ) ≤ q * 10 ^ p := mul_nonneg h (by positivity)
      push_cast
      linarith
    exact_mod_cast hfl
  · positivity

theorem roundTo_of_zero (p : ℕ) : roundTo p 0 = 0 := by
  unfold roundTo
  norm_num

theorem safe_div_nonneg (n d : ℚ) (hn : 0 ≤ n) (hd : 0 ≤ d) :
    0 ≤ safe_div n d := by
  unfold safe_div
  split
  · exact le_refl 0
  · exact div_nonneg hn hd

def c6Event : DowntimeEvent :=
  { started_at := -50, start_comment := "open fault" }

/-- C6 counterexample: for a window that has not yet elapsed
(`now = window_start`, so the elapsed window is 0) and one matching open
event, `_mtbf_mttr_for_equipment` returns `event_count = 0` although the
number of matching events is 1: the early return at `win_sec <= 0`
discards the count. -/
theorem mtbf_mttr_event_count_cex :
    ([c6Event].filter (fun e => overlaps_window e 0 100)).length = 1 ∧
    (mtbf_mttr_for_equipment [c6Event] 0 100 0).2.2.2 = 0 ∧
    (1 : ℕ) ≠ 0 := by
  refine ⟨by decide, ?_, by decide⟩
  have hw : window_seconds 0 100 0 = 0 := by decide
  unfold mtbf_mttr_for_equipment
  rw [hw]
  simp

/-- C6 (amended): whenever the elapsed window is positive,
`_mtbf_mttr_for_equipment` returns `event_count` equal to the number of
events it was given (each counted once regardless of partial overlap),
`mttr_days = round3((downtime/event_count)/86400)` and
`mtbf_days = round3((uptime/event_count)/86400)` with the division
defined as 0 when `event_count = 0`; when the elapsed window is zero or
negative it returns all zeros, `event_count` included, regardless of the
events.  MTBF and MTTR are always nonnegative, and the overall
dashboard MTTR/MTBF (`plant_dashboard` lines 499-500) obey the same
formulas. -/
theorem mtbf_mttr_spec (evs : List DowntimeEvent) (ws we now_ts : Int) :
    (window_seconds ws we now_ts ≤ 0 →
      mtbf_mttr_for_equipment evs ws we now_ts = (0, 0, 0, 0)) ∧
    (0 < window_seconds ws we now_ts →
      mtbf_mttr_for_equipment evs ws we now_ts =
        (roundTo 3 (safe_div
            (max 0 ((window_seconds ws we now_ts : ℚ) -
              (total_downtime_seconds evs ws we now_ts : ℚ)))
            (evs.length : ℚ) / 86400),
         roundTo 3 (safe_div (total_downtime_seconds evs ws we now_ts : ℚ)
            (evs.length : ℚ) / 86400),
         roundTo 3 ((total_downtime_seconds evs ws we now_ts : ℚ) / 86400),
         evs.length)) ∧
    (0 < window_seconds ws we now_ts →
      (mtbf_mttr_for_equipment evs ws we now_ts).2.2.2 = evs.length) ∧
    (evs.length = 0 →
      (mtbf_mttr_for_equipment evs ws we now_ts).1 = 0 ∧
      (mtbf_mttr_for_equipment evs ws we now_ts).2.1 = 0) ∧
    (0 ≤ (mtbf_mttr_for_equipment evs ws we now_ts).1 ∧
     0 ≤ (mtbf_mttr_for_equipment evs ws we now_ts).2.1) ∧
    (∀ d : ℚ, 0 ≤ d → ∀ (w : ℚ) (n : ℕ),
      0 ≤ overall_mttr_days d n ∧ 0 ≤ overall_mtbf_days w d n ∧
      (n = 0 → overall_mttr_days d n = 0 ∧ overall_mtbf_days w d n = 0)) := by
  have hd : (0 : ℚ) ≤ (total_downtime_seconds evs ws we now_ts : ℚ) := by
    exact_mod_cast total_downtime_nonneg evs ws we now_ts
  refine ⟨fun h => ?_, fun h => ?_, fun h => ?_, fun h => ?_, ?_, ?_⟩
  · unfold mtbf_mttr_for_equipment
    rw [if_pos h]
  · unfold mtbf_mttr_for_equipment
    rw [if_neg (not_le.mpr h)]
  · unfold mtbf_mttr_for_equipment
    rw [if_neg (not_le.mpr h)]
  · simp only [mtbf_mttr_for_equipment]
    split
    · exact ⟨rfl, rfl⟩
    · rw [h]
      constructor <;> simp [safe_div, roundTo_of_zero]
  · simp only [mtbf_mttr_for_equipment]
    split
    · exact ⟨le_refl 0, le_refl 0⟩
    · constructor
      · apply roundTo_nonneg
        apply div_nonneg _ (by norm_num)
        exact safe_div_nonneg _ _ (le_max_left 0 _) (Nat.cast_nonneg _)
      · apply roundTo_nonneg
        apply div_nonneg _ (by norm_num)
        exact safe_div_nonneg _ _ hd (Nat.cast_nonneg _)
  · intro d hdn w n
    refine ⟨?_, ?_, fun hn => ?_⟩
    · apply roundTo_nonneg
      apply div_nonneg _ (by norm_num)
      exact safe_div_nonneg _ _ hdn (Nat.cast_nonneg _)
    · apply roundTo_nonneg
      apply div_nonneg _ (by norm_num)
      exact safe_div_nonneg _ _ (le_max_left 0 _) (Nat.cast_nonneg _)
    · subst hn
      constructor <;> simp [overall_mttr_days, overall_mtbf_days, safe_div, roundTo_of_zero]

def c6WEvs : List DowntimeEvent :=
  [{ started_at := 10, ended_at := some 30, start_comment := "trip" }]

theorem mtbf_mttr_spec_witness :
    (0 : Int) < window_seconds 0 100 200 ∧
    (mtbf_mttr_for_equipment c6WEvs 0 100 200).2.2.2 = c6WEvs.length := by
  have h : (0 : Int) < window_seconds 0 100 200 := by decide
  exact ⟨h, (mtbf_mttr_spec c6WEvs 0 100 200).2.2.1 h⟩

/-! ### Claim C7: Pareto ranking -/

theorem insertByDays_perm (x : ParetoItem) (l : List ParetoItem) :
    (insertByDays x l).Perm (x :: l) := by
  induction l with
  | nil => exact List.Perm.refl _
  | cons y ys ih =>
    unfold insertByDays
    split
    · exact List.Perm.refl _
    · exact (List.Perm.cons y ih).trans (List.Perm.swap x y ys)

theorem sortByDaysDesc_perm (l : List ParetoItem) : (sortByDaysDesc l).Perm l := by
  induction l with
  | nil => exact List.Perm.refl _
  | cons x xs ih =>
    exact (insertByDays_perm x (sortByDaysDesc xs)).trans (List.Perm.cons x ih)

theorem mem_insertByDays (x z : ParetoItem) (l : List ParetoItem) :
    z ∈ insertByDays x l ↔ z = x ∨ z ∈ l := by
  rw [(insertByDays_perm x l).mem_iff, List.mem_cons]

theorem pairwise_insertByDays (x : ParetoItem) (l : List ParetoItem)
    (h : List.Pairwise (fun a b => b.downtime_days ≤ a.downtime_days) l) :
    List.Pairwise (fun a b => b.downtime_days ≤ a.downtime_days)
      (insertByDays x l) := by
  induction l with
  | nil => simp [insertByDays]
  | cons y ys ih =>
    obtain ⟨hy, hys⟩ := List.pairwise_cons.mp h
    unfold insertByDays
    split
    next hle =>
      refine List.Pairwise.cons ?_ h
      intro z hz
      rcases List.mem_cons.mp hz with rfl | hz
      · exact hle
      · exact le_trans (hy z hz) hle
    next hgt =>
      refine List.Pairwise.cons ?_ (ih hys)
      intro z hz
      rcases (mem_insertByDays x z ys).mp hz with rfl | hz
      · exact le_of_lt (lt_of_not_le hgt)
      · exact hy z hz

theorem sortByDaysDesc_sorted (l : List ParetoItem) :
    List.Pairwise (fun a b => b.downtime_days ≤ a.downtime_days)
      (sortByDaysDesc l) := by
  induction l with
  | nil => simp [sortByDaysDesc]
  | cons x xs ih => exact pairwise_insertByDays x (sortByDaysDesc xs) ih

theorem pareto_fold_snd (denom : ℚ) :
    ∀ (vals : List ℚ) (c0 : ℚ) (out0 : List ℚ),
      (vals.foldl
        (fun acc v => (acc.1 + v, acc.2 ++ [roundTo 2 ((acc.1 + v) / denom * 100)]))
        (c0, out0)).2 =
        out0 ++ (cumSums c0 vals).map (fun c => roundTo 2 (c / denom * 100)) := by
  intro vals
  induction vals with
  | nil => intro c0 out0; simp [cumSums]
  | cons v vs ih =>
    intro c0 out0
    simp only [List.foldl_cons, cumSums, List.map_cons]
    rw [ih]
    simp

theorem cumSums_getElem (c0 : ℚ) (vs : List ℚ) (k : ℕ) (hk : k < vs.length) :
    (cumSums c0 vs)[k]? = some (c0 + (vs.take (k + 1)).sum) := by
  induction vs generalizing c0 k with
  | nil => cases hk
  | cons v vs' ih =>
    cases k with
    | zero => simp [cumSums]
    | succ k' =>
      have hk' : k' < vs'.length := by simpa using hk
      simp only [cumSums, List.getElem?_cons_succ, ih (c0 + v) k' hk',
        List.take_succ_cons, List.sum_cons]
      rw [add_assoc]

theorem cumSums_length (c0 : ℚ) (vs : List ℚ) :
    (cumSums c0 vs).length = vs.length := by
  induction vs generalizing c0 with
  | nil => rfl
  | cons v vs' ih => simp [cumSums, ih]

/-- C7: the Pareto ranking keeps exactly the equipment with positive
downtime seconds (zero-downtime equipment is excluded entirely), sorts
it descending by rounded `downtime_days`, takes the top 10, and — when
the total over all ranked equipment is positive — reports cumulative
percentages `round2(100 * running-sum / total-over-all-ranked)`, the
denominator covering every ranked equipment, not only the top 10. -/
theorem pareto_spec (rows : List (Nat × ℚ)) :
    List.Pairwise (fun a b : ParetoItem => b.downtime_days ≤ a.downtime_days)
      (pareto_items rows) ∧
    (pareto_items rows).Perm ((rows.filter (fun r => 0 < r.2)).map
      (fun r => { equipment_id := r.1, downtime_days := roundTo 3 (r.2 / 86400) })) ∧
    (∀ it ∈ pareto_items rows, ∃ r ∈ rows, 0 < r.2 ∧
      it = { equipment_id := r.1, downtime_days := roundTo 3 (r.2 / 86400) }) ∧
    pareto_top rows = (pareto_items rows).take 10 ∧
    (0 < pareto_total_all rows →
      ∀ k, k < (pareto_top rows).length →
        (pareto_cum_pct rows)[k]? =
          some (roundTo 2
            (((((pareto_top rows).map (fun it => it.downtime_days)).take (k + 1)).sum /
              pareto_total_all rows) * 100))) := by
  refine ⟨sortByDaysDesc_sorted _, sortByDaysDesc_perm _, ?_, rfl, ?_⟩
  · intro it hit
    have hmem : it ∈ (rows.filter (fun r => 0 < r.2)).map
        (fun r => ({ equipment_id := r.1,
                     downtime_days := roundTo 3 (r.2 / 86400) } : ParetoItem)) :=
      (sortByDaysDesc_perm _).mem_iff.mp hit
    simp only [List.mem_map, List.mem_filter, decide_eq_true_eq] at hmem
    obtain ⟨r, ⟨hr, hpos⟩, heq⟩ := hmem
    exact ⟨r, hr, hpos, heq.symm⟩
  · intro htot k hk
    unfold pareto_cum_pct
    rw [if_pos htot]
    rw [pareto_fold_snd (pareto_total_all rows)
      ((pareto_top rows).map (fun it => it.downtime_days)) 0 []]
    rw [List.nil_append, List.getElem?_map]
    have hk' : k < ((pareto_top rows).map (fun it => it.downtime_days)).length := by
      simpa using hk
    rw [cumSums_getElem 0 _ k hk']
    simp

def c7Rows : List (Nat × ℚ) :=
  [(1, 86400), (2, 0), (3, 172800)]

theorem pareto_spec_witness :
    0 < pareto_total_all c7Rows ∧ 0 < (pareto_top c7Rows).length ∧
    (pareto_cum_pct c7Rows)[0]? =
      some (roundTo 2
        (((((pareto_top c7Rows).map (fun it => it.downtime_days)).take 1).sum /
          pareto_total_all c7Rows) * 100)) := by
  have hitems : pareto_items c7Rows =
      [{ equipment_id := 3, downtime_days := 2 },
       { equipment_id := 1, downtime_days := 1 }] := by
    norm_num [pareto_items, c7Rows, List.filter, sortByDaysDesc, insertByDays,
      roundTo]
  have h1 : 0 < pareto_total_all c7Rows := by
    rw [pareto_total_all, hitems]
    norm_num
  have h2 : 0 < (pareto_top c7Rows).length := by
    rw [pareto_top, hitems]
    norm_num
  exact ⟨h1, h2, (pareto_spec c7Rows).2.2.2.2 h1 0 h2⟩

/-! ### Claim C10: report scoping by active flags -/

def c10Dept : DeptRow := { id := 1, is_active := false }

def c10Equip : EquipRow := { id := 7, department_id := 1, is_active := true }

def c10Row : EventRow :=
  { equipment_id := 7,
    event := { started_at := 10, ended_at := some 20, start_comment := "x" } }

/-- C10 counterexample: the per-equipment CSV export
(`equipment_export_csv`) checks only the equipment's own `is_active`
flag; for an active equipment in an inactive department its downtime is
still included in the export aggregate, so not every report excludes
inactive departments. -/
theorem export_ignores_department_active :
    c10Dept.is_active = false ∧ c10Equip.department_id = c10Dept.id ∧
    c10Equip.is_active = true ∧
    equipment_export_total_seconds [c10Row] c10Equip.id 0 100 100 = 10 ∧
    (10 : Int) ≠ 0 :=
  ⟨rfl, rfl, rfl, by decide, by decide⟩

/-- C10 (amended): the plant dashboard and the department view restrict
their aggregates to events of active equipment in active departments
(an event whose equipment is inactive, or whose department is inactive,
is silently excluded); the per-equipment export and detail pages require
only the equipment itself to be active and include its downtime even
when its department is deactivated. -/
theorem report_scope_spec (depts : List DeptRow) (equips : List EquipRow)
    (rows : List EventRow) (ws we : Int) :
    (∀ r ∈ dashboard_events depts equips rows ws we,
      ∃ q ∈ equips, q.id = r.equipment_id ∧ q.is_active = true ∧
        ∃ d ∈ depts, d.id = q.department_id ∧ d.is_active = true) ∧
    (∀ x : EventRow,
      (∀ q ∈ equips, q.id = x.equipment_id →
        q.is_active = false ∨ deptActive depts q.department_id = false) →
      dashboard_events depts equips (rows ++ [x]) ws we =
        dashboard_events depts equips rows ws we) ∧
    (∀ dept : DeptRow, ∀ r ∈ department_events dept equips rows ws we,
      ∃ q ∈ equips, q.id = r.equipment_id ∧ q.department_id = dept.id ∧
        q.is_active = true) := by
  refine ⟨?_, ?_, ?_⟩
  · intro r hr
    rw [dashboard_events, List.mem_filter] at hr
    obtain ⟨-, hp⟩ := hr
    simp only [Bool.and_eq_true, List.any_eq_true, decide_eq_true_eq] at hp
    obtain ⟨⟨q, hq, ⟨hid, hact⟩, hdept⟩, -⟩ := hp
    simp only [deptActive, List.any_eq_true, Bool.and_eq_true,
      decide_eq_true_eq] at hdept
    obtain ⟨d, hd, hdid, hdact⟩ := hdept
    exact ⟨q, hq, hid, hact, d, hd, hdid, hdact⟩
  · intro x hx
    have hany : (equips.any fun q =>
        q.id = x.equipment_id && q.is_active &&
          deptActive depts q.department_id) = false := by
      rw [List.any_eq_false]
      intro q hq hcond
      simp only [Bool.and_eq_true, decide_eq_true_eq] at hcond
      obtain ⟨⟨hid, hact⟩, hdept⟩ := hcond
      rcases hx q hq hid with h | h
      · exact absurd hact (by simp [h])
      · exact absurd hdept (by simp [h])
    unfold dashboard_events
    rw [List.filter_append]
    simp [hany]
  · intro dept r hr
    rw [department_events, List.mem_filter] at hr
    obtain ⟨-, hp⟩ := hr
    simp only [Bool.and_eq_true, List.any_eq_true, decide_eq_true_eq] at hp
    obtain ⟨⟨q, hq, ⟨hid, hdid⟩, hact⟩, -⟩ := hp
    exact ⟨q, hq, hid, hdid, hact⟩

def c10ActiveDept : DeptRow := { id := 2, is_active := true }

def c10ActiveEquip : EquipRow := { id := 8, department_id := 2, is_active := true }

def c10ActiveRow : EventRow :=
  { equipment_id := 8,
    event := { started_at := 10, ended_at := some 20, start_comment := "y" } }

theorem report_scope_spec_witness :
    c10ActiveRow ∈
      dashboard_events [c10ActiveDept] [c10ActiveEquip] [c10ActiveRow] 0 100 ∧
    ∃ q ∈ [c10ActiveEquip], q.id = c10ActiveRow.equipment_id ∧
      q.is_active = true ∧
      ∃ d ∈ [c10ActiveDept], d.id = q.department_id ∧ d.is_active = true := by
  have hm : c10ActiveRow ∈
      dashboard_events [c10ActiveDept] [c10ActiveEquip] [c10ActiveRow] 0 100 := by
    decide
  exact ⟨hm,
    (report_scope_spec [c10ActiveDept] [c10ActiveEquip] [c10ActiveRow] 0 100).1
      c10ActiveRow hm⟩

/-! ### Claim C4: category required on DOWN (spec-modelled engine) -/

/-- C4: on a DOWN transition that passes the earlier validations (valid
comment, currently UP, no open event), the transition operation must be
given a downtime category — without one it fails with
`MissingCategory`, and with one the created DowntimeEvent carries that
category (a value of the PLANNED/UNPLANNED enumeration); the status
form enforces the same requirement at form level, erroring exactly when
the new status is DOWN and no category was chosen. -/
theorem down_requires_category (s : EquipmentState) (c : String) (u : Option Nat)
    (t : Int) (hc : pyStrip c ≠ "") (hs : s.status = Status.UP)
    (hno : hasOpen s.events = false) :
    set_status_with_category s "DOWN" c none u t = .error .missingCategory ∧
    (∀ k : Category,
      set_status_with_category s "DOWN" c (some k) u t = .ok
        ({ status := Status.DOWN,
           status_updated_at := t,
           events := s.events ++
             [{ started_at := t,
                start_comment := pyStrip c,
                created_by := u,
                started_by_log := some s.logs.length,
                category := some k }],
           logs := s.logs ++
             [{ changed_by := u,
                from_status := Status.UP,
                to_status := Status.DOWN,
                comment := pyStrip c,
                changed_at := t }] },
         { changed_by := u,
           from_status := Status.UP,
           to_status := Status.DOWN,
           comment := pyStrip c,
           changed_at := t })) ∧
    (∀ (ns : Status) (oc : Option Category),
      equipment_status_form_clean ns oc = .error .missingDowntimeCategory ↔
        ns = Status.DOWN ∧ oc = none) := by
  refine ⟨?_, fun k => ?_, fun ns oc => ?_⟩
  · unfold set_status_with_category
    rw [show parseStatus "DOWN" = some Status.DOWN from rfl, hs]
    simp [hc, hno]
  · unfold set_status_with_category
    rw [show parseStatus "DOWN" = some Status.DOWN from rfl, hs]
    simp [hc, hno]
  · cases ns <;> cases oc <;> simp [equipment_status_form_clean]

def c4State : EquipmentState :=
  { status := .UP, status_updated_at := 0, events := [], logs := [] }

theorem down_requires_category_witness :
    pyStrip "calibration due" ≠ "" ∧ c4State.status = Status.UP ∧
    hasOpen c4State.events = false ∧
    set_status_with_category c4State "DOWN" "calibration due" none none 5 =
      .error .missingCategory := by
  have h1 : pyStrip "calibration due" ≠ "" := by decide
  have h2 : c4State.status = Status.UP := rfl
  have h3 : hasOpen c4State.events = false := rfl
  exact ⟨h1, h2, h3,
    (down_requires_category c4State "calibration due" none 5 h1 h2 h3).1⟩

end Downtime
